import Mathlib

/-!
Verification of the findr meta-search core: data model, sorter, aggregator,
plugin registry and key/value cache, shallowly embedded from the TypeScript
sources (src/core/sorting.ts, src/core/backend.ts, src/core/plugins.ts,
src/core/keyValueStorage.ts).  JavaScript numbers are modelled as Int,
optional fields as Option, JS Map insertion order as association lists, and
the stable Array.prototype.sort with a consistent comparator as a stable
merge sort over the relation (cmp a b <= 0).  Asynchronous completion order
of the provider fan-out is made explicit as an arrival list parameter, and
wall-clock reads (Date.now) as explicit time parameters.
-/

namespace Findr

/-- Sort policies, from SortOrder in sorting.ts / backend.ts. -/
inductive SortOrder where
  | relevance
  | recency
  | source
deriving Repr, DecidableEq

/-- A raw provider result (PluginSearchResult in plugins.ts).  The optional
generated id and the opaque metadata field are not modelled; no claim
concerns them. -/
structure PluginSearchResult where
  title : String
  description : String
  url : String
  score : Option Int := none
  timestamp : Option Int := none
deriving Repr, DecidableEq

/-- An aggregated result (SearchResult in backend.ts).  The random generated
id is not modelled. -/
structure SearchResult where
  title : String
  description : String
  url : String
  score : Option Int := none
  timestamp : Option Int := none
  pluginIds : List String := []
  pluginDisplayNames : List String := []
  receivedAt : Int := 0
deriving Repr, DecidableEq

/-- scoreFallback from sorting.ts / backend.ts: a missing score counts as 0. -/
def scoreFallback (r : SearchResult) : Int :=
  match r.score with
  | some s => s
  | none => 0

/-- timestampFallback from sorting.ts / backend.ts: the explicit timestamp if
present, else receivedAt. -/
def timestampFallback (r : SearchResult) : Int :=
  match r.timestamp with
  | some t => t
  | none => r.receivedAt

/-- String.prototype.localeCompare, modelled as comparison in the total
order on strings: negative, zero or positive. -/
def localeCompare (a b : String) : Int :=
  if a < b then -1 else if b < a then 1 else 0

namespace Sorting

/-- The relevance comparator of the standalone module sorting.ts: descending
by score fallback, then descending by effective timestamp.  (Unlike the
comparator inside backend.ts, it has no provider-count key.) -/
def relevanceCmp (a b : SearchResult) : Int :=
  let byScore := scoreFallback b - scoreFallback a
  if byScore ≠ 0 then byScore
  else timestampFallback b - timestampFallback a

/-- The recency comparator of sorting.ts: descending by effective timestamp,
then descending by score fallback. -/
def recencyCmp (a b : SearchResult) : Int :=
  let byTimestamp := timestampFallback b - timestampFallback a
  if byTimestamp ≠ 0 then byTimestamp
  else scoreFallback b - scoreFallback a

/-- The source comparator of sorting.ts: descending by number of plugin ids,
then ascending by the comma-joined plugin id list, then descending by score
fallback. -/
def sourceCmp (a b : SearchResult) : Int :=
  let pluginCountDiff := (b.pluginIds.length : Int) - (a.pluginIds.length : Int)
  if pluginCountDiff ≠ 0 then pluginCountDiff
  else
    let byPluginIds :=
      localeCompare (String.intercalate ", " a.pluginIds) (String.intercalate ", " b.pluginIds)
    if byPluginIds ≠ 0 then byPluginIds
    else scoreFallback b - scoreFallback a

/-- sortResults from sorting.ts: a copy of the input array sorted stably by
the comparator of the selected policy. -/
def sortResults (results : List SearchResult) (order : SortOrder) : List SearchResult :=
  match order with
  | .recency => results.mergeSort (fun a b => decide (recencyCmp a b ≤ 0))
  | .source => results.mergeSort (fun a b => decide (sourceCmp a b ≤ 0))
  | .relevance => results.mergeSort (fun a b => decide (relevanceCmp a b ≤ 0))

end Sorting

namespace Backend

/-- The relevance comparator local to backend.ts: descending by number of
contributing plugins, then descending by score fallback, then descending by
effective timestamp. -/
def relevanceCmp (a b : SearchResult) : Int :=
  let pluginCountDiff := (b.pluginIds.length : Int) - (a.pluginIds.length : Int)
  if pluginCountDiff ≠ 0 then pluginCountDiff
  else
    let byScore := scoreFallback b - scoreFallback a
    if byScore ≠ 0 then byScore
    else timestampFallback b - timestampFallback a

/-- The recency comparator local to backend.ts (same rule as sorting.ts). -/
def recencyCmp (a b : SearchResult) : Int :=
  let byTimestamp := timestampFallback b - timestampFallback a
  if byTimestamp ≠ 0 then byTimestamp
  else scoreFallback b - scoreFallback a

/-- The source comparator local to backend.ts (same rule as sorting.ts). -/
def sourceCmp (a b : SearchResult) : Int :=
  let pluginCountDiff := (b.pluginIds.length : Int) - (a.pluginIds.length : Int)
  if pluginCountDiff ≠ 0 then pluginCountDiff
  else
    let byPluginIds :=
      localeCompare (String.intercalate ", " a.pluginIds) (String.intercalate ", " b.pluginIds)
    if byPluginIds ≠ 0 then byPluginIds
    else scoreFallback b - scoreFallback a

/-- sortResults local to backend.ts. -/
def sortResults (results : List SearchResult) (order : SortOrder) : List SearchResult :=
  match order with
  | .recency => results.mergeSort (fun a b => decide (recencyCmp a b ≤ 0))
  | .source => results.mergeSort (fun a b => decide (sourceCmp a b ≤ 0))
  | .relevance => results.mergeSort (fun a b => decide (relevanceCmp a b ≤ 0))

end Backend

/-- One enabled provider group of raw results (PluginSearchResultGroup in
plugins.ts). -/
structure PluginSearchResultGroup where
  pluginId : String
  pluginDisplayName : String
  results : List PluginSearchResult
deriving Repr, DecidableEq

/-- A raw result tagged with its contributing plugin, as pushed into the
per-url merge table by aggregatePluginResults in backend.ts. -/
structure TaggedResult where
  title : String
  description : String
  url : String
  score : Option Int := none
  timestamp : Option Int := none
  pluginId : String
  pluginDisplayName : String
deriving Repr, DecidableEq

/-- The object spread that tags a raw result with its plugin. -/
def tagResult (pluginId pluginDisplayName : String) (r : PluginSearchResult) : TaggedResult :=
  { title := r.title, description := r.description, url := r.url,
    score := r.score, timestamp := r.timestamp,
    pluginId := pluginId, pluginDisplayName := pluginDisplayName }

/-- One step of building the per-url table: JS Map semantics, appending a
value to the group of its key, creating the group at the end on first
sight of the key. -/
def addToGroups (acc : List (String × List TaggedResult)) (t : TaggedResult) :
    List (String × List TaggedResult) :=
  match acc with
  | [] => [(t.url, [t])]
  | (k, vs) :: rest =>
    if k = t.url then (k, vs ++ [t]) :: rest else (k, vs) :: addToGroups rest t

/-- The per-url merge table of aggregatePluginResults, in Map insertion
order. -/
def groupByUrl (tagged : List TaggedResult) : List (String × List TaggedResult) :=
  tagged.foldl addToGroups []

/-- The in-place sort of one urls contributor list by descending plugin id
(the comparator b.pluginId.localeCompare(a.pluginId) in backend.ts). -/
def pluginIdDescLe (a b : TaggedResult) : Bool :=
  decide (localeCompare b.pluginId a.pluginId ≤ 0)

/-- Object.assign over the sorted contributor list: each always-present
field takes the value of the last object, each optional field the last
present value. -/
def assignCombine (first : TaggedResult) (rest : List TaggedResult) : TaggedResult :=
  rest.foldl
    (fun acc v =>
      { title := v.title, description := v.description, url := v.url,
        score := match v.score with | some s => some s | none => acc.score,
        timestamp := match v.timestamp with | some t => some t | none => acc.timestamp,
        pluginId := v.pluginId, pluginDisplayName := v.pluginDisplayName })
    first

/-- The per-url combination step of aggregatePluginResults in backend.ts:
sort contributors by descending plugin id, field-combine them, sum their
scores (the score field is set only when some contributor supplied one),
and record the parallel plugin id and display name lists. -/
def combineValues (receivedAt : Int) (values : List TaggedResult) : Option SearchResult :=
  let sorted := values.mergeSort pluginIdDescLe
  match sorted with
  | [] => none
  | first :: rest =>
    let combined := assignCombine first rest
    let totalScore := sorted.foldl (fun sum curr => sum + curr.score.getD 0) 0
    some
      { title := combined.title, description := combined.description, url := combined.url,
        score := if sorted.any (fun v => v.score.isSome) then some totalScore else combined.score,
        timestamp := combined.timestamp,
        pluginIds := sorted.map (fun v => v.pluginId),
        pluginDisplayNames := sorted.map (fun v => v.pluginDisplayName),
        receivedAt := receivedAt }

/-- aggregatePluginResults from backend.ts, with the Date.now() read passed
in as receivedAt.  Falsy raw results, skipped by the source, cannot be
represented and are absent from the model. -/
def aggregatePluginResults (groups : List PluginSearchResultGroup) (receivedAt : Int) :
    List SearchResult :=
  let tagged :=
    (groups.map (fun g => g.results.map (tagResult g.pluginId g.pluginDisplayName))).flatten
  (groupByUrl tagged).filterMap (fun kv => combineValues receivedAt kv.2)

/-- A provider descriptor (SearchPlugin in plugins.ts); its asynchronous
search operation is represented by the completion outcome below. -/
structure SearchPlugin where
  id : String
  displayName : String
  descr : Option String := none
  isEnabledByDefault : Option Bool := none
deriving Repr, DecidableEq

/-- A per-provider error record (PluginSearchError in plugins.ts); the
thrown Error value is modelled by its message. -/
structure PluginSearchError where
  pluginId : String
  pluginDisplayName : String
  error : String
deriving Repr, DecidableEq

/-- The settled outcome of one provider fetch task in searchStream. -/
inductive Outcome where
  | fulfilled (results : List PluginSearchResult)
  | rejected (error : String)
deriving Repr, DecidableEq

/-- Whether an outcome is a rejection. -/
def Outcome.isRejected : Outcome → Bool
  | .fulfilled _ => false
  | .rejected _ => true

/-- One provider completion event, as drained by Promise.race in arrival
order. -/
structure Completion where
  plugin : SearchPlugin
  outcome : Outcome
deriving Repr, DecidableEq

/-- Whether a completion is a rejection. -/
def Completion.isRejected (c : Completion) : Bool :=
  c.outcome.isRejected

/-- A search snapshot (SearchResponse in backend.ts). -/
structure SearchResponse where
  results : List SearchResult
  errors : List PluginSearchError
deriving Repr, DecidableEq

namespace Backend

/-- The completion-draining loop of Backend.searchStream in backend.ts:
each arrival folds into the group table or the error list and yields one
snapshot holding the full re-sorted aggregate and a copy of the errors so
far.  The wall-clock read of each fold is abstracted by the now
parameter; no claim depends on receivedAt values. -/
def streamGo (sortOrder : SortOrder) (now : Int)
    (groups : List PluginSearchResultGroup) (errors : List PluginSearchError) :
    List Completion → List SearchResponse
  | [] => []
  | c :: rest =>
    match c.outcome with
    | .fulfilled results =>
      let groups2 := groups ++ [⟨c.plugin.id, c.plugin.displayName, results⟩]
      ⟨sortResults (aggregatePluginResults groups2 now) sortOrder, errors⟩ ::
        streamGo sortOrder now groups2 errors rest
    | .rejected e =>
      let errors2 := errors ++ [⟨c.plugin.id, c.plugin.displayName, e⟩]
      ⟨sortResults (aggregatePluginResults groups now) sortOrder, errors2⟩ ::
        streamGo sortOrder now groups errors2 rest

/-- Backend.searchStream from backend.ts, as the finite list of snapshots it
yields: empty when no plugin is enabled, else one snapshot per completion,
with the nondeterministic arrival order passed in explicitly. -/
def searchStream (enabledPlugins : List SearchPlugin) (arrival : List Completion)
    (sortOrder : SortOrder) (now : Int) : List SearchResponse :=
  if enabledPlugins.isEmpty then [] else streamGo sortOrder now [] [] arrival

/-- Backend.getCacheKey from backend.ts (the same key scheme appears in
PluginManager of plugins.ts): the plain dash-joined string of plugin id,
query and optional limit. -/
def getCacheKey (pluginId query : String) (limit : Option Nat) : String :=
  pluginId ++ "-" ++ query ++ "-" ++ (match limit with | some n => toString n | none => "")

end Backend

/-- A cache entry of keyValueStorage.ts. -/
structure CacheEntry (V : Type) where
  value : V
  cachedAt : Int
  expiresAt : Option Int := none
deriving Repr, DecidableEq

/-- The on-disk document of keyValueStorage.ts (CacheFileFormat), with the
JSON object entries as an association list. -/
structure CacheFileFormat (V : Type) where
  version : Int
  entries : List (String × CacheEntry V)
deriving Repr, DecidableEq

/-- The supported cache file version. -/
def CACHE_FILE_VERSION : Int := 1

/-- The in-memory state of a KeyValueStorage instance: its resolved TTL
configuration and the loaded entry table in insertion order.  Keys are
taken already serialized. -/
structure KeyValueStorage (V : Type) where
  ttlMs : Option Int := none
  entries : List (String × CacheEntry V) := []
deriving Repr, DecidableEq

namespace KeyValueStorage

/-- Map.get over the entry table. -/
def lookupEntry : List (String × CacheEntry V) → String → Option (CacheEntry V)
  | [], _ => none
  | kv :: rest, k => if kv.1 = k then some kv.2 else lookupEntry rest k

/-- Map.set over the entry table: replace in place, else append. -/
def setEntry : List (String × CacheEntry V) → String → CacheEntry V →
    List (String × CacheEntry V)
  | [], k, e => [(k, e)]
  | kv :: rest, k, e => if kv.1 = k then (k, e) :: rest else kv :: setEntry rest k e

/-- isExpired from keyValueStorage.ts: the explicit expiresAt bound if
present, else cachedAt plus the configured TTL when that is positive, else
never. -/
def isExpired (s : KeyValueStorage V) (now : Int) (e : CacheEntry V) : Bool :=
  match e.expiresAt with
  | some ea => decide (ea ≤ now)
  | none =>
    match s.ttlMs with
    | some t => if t > 0 then decide (e.cachedAt + t ≤ now) else false
    | none => false

/-- set from keyValueStorage.ts, with Date.now() passed as now: stores the
value with cachedAt now and, when the TTL is positive, expiresAt now + TTL. -/
def set (s : KeyValueStorage V) (k : String) (v : V) (now : Int) : KeyValueStorage V :=
  let expiresAt : Option Int :=
    match s.ttlMs with
    | some t => if t > 0 then some (now + t) else none
    | none => none
  { s with entries := setEntry s.entries k ⟨v, now, expiresAt⟩ }

/-- get from keyValueStorage.ts: a missing entry is absent; an expired entry
is deleted and absent; otherwise the stored value is returned. -/
def get (s : KeyValueStorage V) (k : String) (now : Int) : Option V × KeyValueStorage V :=
  match lookupEntry s.entries k with
  | none => (none, s)
  | some e =>
    if s.isExpired now e then
      (none, { s with entries := s.entries.eraseP (fun kv => kv.1 == k) })
    else
      (some e.value, s)

/-- pruneExpiredEntries from keyValueStorage.ts. -/
def pruneExpiredEntries (s : KeyValueStorage V) (now : Int) : KeyValueStorage V :=
  { s with entries := s.entries.filter (fun kv => ¬ s.isExpired now kv.2) }

/-- loadFromDisk from keyValueStorage.ts: the parsed document is adopted
only when its version equals the supported one, else the store starts
empty; expired entries are pruned.  A missing or unparseable file is the
none case.  Read failures are caught by the source and likewise leave the
table empty. -/
def loadFromDisk (ttlMs : Option Int) (doc : Option (CacheFileFormat V)) (now : Int) :
    KeyValueStorage V :=
  let base : KeyValueStorage V := { ttlMs := ttlMs, entries := [] }
  match doc with
  | none => base
  | some d =>
    if d.version = CACHE_FILE_VERSION then
      pruneExpiredEntries { base with entries := d.entries } now
    else
      pruneExpiredEntries base now

end KeyValueStorage

/-- The registry errors thrown by PluginManager in plugins.ts, as structured
values. -/
inductive RegistryError where
  | alreadyRegistered (id : String)
  | unknownPlugin (id : String)
deriving Repr, DecidableEq

/-- A registry entry (PluginRegistration in plugins.ts). -/
structure PluginRegistration where
  plugin : SearchPlugin
  enabled : Bool
deriving Repr, DecidableEq

/-- The PluginManager registry state: its Map of registrations in insertion
order. -/
structure PluginManager where
  plugins : List (String × PluginRegistration) := []
deriving Repr, DecidableEq

namespace PluginManager

/-- Map.get over the registration table. -/
def lookupReg : List (String × PluginRegistration) → String → Option PluginRegistration
  | [], _ => none
  | kv :: rest, k => if kv.1 = k then some kv.2 else lookupReg rest k

/-- In-place update of a registration, preserving Map insertion order. -/
def updateReg : List (String × PluginRegistration) → String → PluginRegistration →
    List (String × PluginRegistration)
  | [], k, r => [(k, r)]
  | kv :: rest, k, r => if kv.1 = k then (k, r) :: rest else kv :: updateReg rest k r

/-- register from plugins.ts: fails when the id is already present, else
records the plugin with the enabled flag defaulted from isEnabledByDefault
(true when unset). -/
def register (m : PluginManager) (p : SearchPlugin) : Except RegistryError PluginManager :=
  match lookupReg m.plugins p.id with
  | some _ => .error (.alreadyRegistered p.id)
  | none =>
    .ok { plugins := m.plugins ++ [(p.id, { plugin := p, enabled := p.isEnabledByDefault.getD true })] }

/-- setEnabled from plugins.ts: fails for an unknown id, else overwrites the
enabled flag. -/
def setEnabled (m : PluginManager) (id : String) (enabled : Bool) :
    Except RegistryError PluginManager :=
  match lookupReg m.plugins id with
  | none => .error (.unknownPlugin id)
  | some reg => .ok { plugins := updateReg m.plugins id { reg with enabled := enabled } }

/-- toggle from plugins.ts: fails for an unknown id, else flips the enabled
flag and returns the resulting state. -/
def toggle (m : PluginManager) (id : String) :
    Except RegistryError (Bool × PluginManager) :=
  match lookupReg m.plugins id with
  | none => .error (.unknownPlugin id)
  | some reg =>
    .ok (!reg.enabled, { plugins := updateReg m.plugins id { reg with enabled := !reg.enabled } })

end PluginManager

/-- The ordering the spec ascribes to the relevance policy, stated from its
words: a result may precede another when it has strictly more contributing
providers, or equally many and a strictly larger summed score (missing
treated as 0), or equal on both and an effective timestamp at least as
large. -/
def relevanceSpecLE (a b : SearchResult) : Prop :=
  b.pluginIds.length < a.pluginIds.length ∨
    (b.pluginIds.length = a.pluginIds.length ∧
      (scoreFallback b < scoreFallback a ∨
        (scoreFallback b = scoreFallback a ∧ timestampFallback b ≤ timestampFallback a)))

instance (a b : SearchResult) : Decidable (relevanceSpecLE a b) := by
  unfold relevanceSpecLE
  infer_instance

/-- The ordering actually realised by the relevance policy of the standalone
sorting.ts module: descending by summed score (missing treated as 0), then
descending by effective timestamp, with no provider-count key. -/
def relevanceModuleLE (a b : SearchResult) : Prop :=
  scoreFallback b < scoreFallback a ∨
    (scoreFallback b = scoreFallback a ∧ timestampFallback b ≤ timestampFallback a)

instance (a b : SearchResult) : Decidable (relevanceModuleLE a b) := by
  unfold relevanceModuleLE
  infer_instance

/-- The ordering realised by the source policy of sorting.ts: descending by
provider count, then ascending by the comma-joined provider id list, then
descending by summed score. -/
def sourceSpecLE (a b : SearchResult) : Prop :=
  b.pluginIds.length < a.pluginIds.length ∨
    (b.pluginIds.length = a.pluginIds.length ∧
      (String.intercalate ", " a.pluginIds < String.intercalate ", " b.pluginIds ∨
        (String.intercalate ", " a.pluginIds = String.intercalate ", " b.pluginIds ∧
          scoreFallback b ≤ scoreFallback a)))

/-- The ordering realised by the recency policy: descending by effective
timestamp, then descending by summed score. -/
def recencySpecLE (a b : SearchResult) : Prop :=
  timestampFallback b < timestampFallback a ∨
    (timestampFallback b = timestampFallback a ∧ scoreFallback b ≤ scoreFallback a)

/-- The error records contributed by a list of completions, in arrival
order. -/
def errorsOf (cs : List Completion) : List PluginSearchError :=
  cs.filterMap fun c =>
    match c.outcome with
    | .fulfilled _ => none
    | .rejected e => some ⟨c.plugin.id, c.plugin.displayName, e⟩

/-! ### Helper lemmas -/

/-- A stable sort of a two-element list is decided by one comparator call. -/
theorem mergeSort_pair {α : Type} (le : α → α → Bool) (a b : α) :
    [a, b].mergeSort le = if le a b then [a, b] else [b, a] := by
  rw [List.mergeSort]
  simp [List.splitInTwo, List.splitAt, List.splitAt.go, List.merge]

theorem relevanceCmp_le_iff (a b : SearchResult) :
    Backend.relevanceCmp a b ≤ 0 ↔ relevanceSpecLE a b := by
  unfold Backend.relevanceCmp relevanceSpecLE
  dsimp only
  split_ifs <;> omega

theorem relevanceCmp_trans (a b c : SearchResult) (hab : Backend.relevanceCmp a b ≤ 0)
    (hbc : Backend.relevanceCmp b c ≤ 0) : Backend.relevanceCmp a c ≤ 0 := by
  rw [relevanceCmp_le_iff] at hab hbc ⊢
  unfold relevanceSpecLE at hab hbc ⊢
  omega

theorem relevanceCmp_total (a b : SearchResult) :
    Backend.relevanceCmp a b ≤ 0 ∨ Backend.relevanceCmp b a ≤ 0 := by
  rw [relevanceCmp_le_iff, relevanceCmp_le_iff]
  unfold relevanceSpecLE
  omega

theorem sortingRelevanceCmp_le_iff (a b : SearchResult) :
    Sorting.relevanceCmp a b ≤ 0 ↔ relevanceModuleLE a b := by
  unfold Sorting.relevanceCmp relevanceModuleLE
  dsimp only
  split_ifs <;> omega

theorem sortingRelevanceCmp_trans (a b c : SearchResult) (hab : Sorting.relevanceCmp a b ≤ 0)
    (hbc : Sorting.relevanceCmp b c ≤ 0) : Sorting.relevanceCmp a c ≤ 0 := by
  rw [sortingRelevanceCmp_le_iff] at hab hbc ⊢
  unfold relevanceModuleLE at hab hbc ⊢
  omega

theorem sortingRelevanceCmp_total (a b : SearchResult) :
    Sorting.relevanceCmp a b ≤ 0 ∨ Sorting.relevanceCmp b a ≤ 0 := by
  rw [sortingRelevanceCmp_le_iff, sortingRelevanceCmp_le_iff]
  unfold relevanceModuleLE
  omega

theorem recencyCmp_le_iff (a b : SearchResult) :
    Sorting.recencyCmp a b ≤ 0 ↔ recencySpecLE a b := by
  unfold Sorting.recencyCmp recencySpecLE
  dsimp only
  split_ifs <;> omega

theorem recencyCmp_trans (a b c : SearchResult) (hab : Sorting.recencyCmp a b ≤ 0)
    (hbc : Sorting.recencyCmp b c ≤ 0) : Sorting.recencyCmp a c ≤ 0 := by
  rw [recencyCmp_le_iff] at hab hbc ⊢
  unfold recencySpecLE at hab hbc ⊢
  omega

theorem recencyCmp_total (a b : SearchResult) :
    Sorting.recencyCmp a b ≤ 0 ∨ Sorting.recencyCmp b a ≤ 0 := by
  rw [recencyCmp_le_iff, recencyCmp_le_iff]
  unfold recencySpecLE
  omega

theorem localeCompare_of_lt {a b : String} (h : a < b) : localeCompare a b = -1 := by
  unfold localeCompare
  rw [if_pos h]

theorem localeCompare_of_eq {a b : String} (h : a = b) : localeCompare a b = 0 := by
  unfold localeCompare
  rw [if_neg (by rw [h]; exact lt_irrefl _), if_neg (by rw [h]; exact lt_irrefl _)]

theorem localeCompare_of_gt {a b : String} (h : b < a) : localeCompare a b = 1 := by
  unfold localeCompare
  rw [if_neg (lt_asymm h), if_pos h]

theorem sourceCmp_le_iff (a b : SearchResult) :
    Sorting.sourceCmp a b ≤ 0 ↔ sourceSpecLE a b := by
  unfold Sorting.sourceCmp sourceSpecLE
  dsimp only
  rcases lt_trichotomy (String.intercalate ", " a.pluginIds) (String.intercalate ", " b.pluginIds)
    with h | h | h
  · rw [localeCompare_of_lt h, if_pos (show (-1 : Int) ≠ 0 by norm_num)]
    simp only [h, h.ne, true_or, false_and, or_false, and_true]
    split_ifs <;> omega
  · rw [localeCompare_of_eq h, if_neg (show ¬((0 : Int) ≠ 0) by norm_num)]
    simp only [h, lt_irrefl, false_or, true_and]
    split_ifs <;> omega
  · rw [localeCompare_of_gt h, if_pos (show (1 : Int) ≠ 0 by norm_num)]
    have h1 : ¬ String.intercalate ", " a.pluginIds < String.intercalate ", " b.pluginIds :=
      lt_asymm h
    have h2 : ¬ String.intercalate ", " a.pluginIds = String.intercalate ", " b.pluginIds :=
      ne_of_gt h
    simp only [h1, h2, false_and, false_or, or_false, and_false]
    split_ifs <;> omega

theorem sourceSpecLE_trans (a b c : SearchResult) (hab : sourceSpecLE a b)
    (hbc : sourceSpecLE b c) : sourceSpecLE a c := by
  unfold sourceSpecLE at hab hbc ⊢
  rcases hab with h1 | ⟨e1, h1⟩
  · rcases hbc with h2 | ⟨e2, h2⟩
    · left; omega
    · left; omega
  · rcases hbc with h2 | ⟨e2, h2⟩
    · left; omega
    · refine Or.inr ⟨by omega, ?_⟩
      rcases h1 with hs1 | ⟨hq1, hs1⟩
      · rcases h2 with hs2 | ⟨hq2, hs2⟩
        · exact Or.inl (lt_trans hs1 hs2)
        · exact Or.inl (hq2 ▸ hs1)
      · rcases h2 with hs2 | ⟨hq2, hs2⟩
        · exact Or.inl (by rw [hq1]; exact hs2)
        · exact Or.inr ⟨by rw [hq1, hq2], by omega⟩

theorem sourceSpecLE_total (a b : SearchResult) : sourceSpecLE a b ∨ sourceSpecLE b a := by
  unfold sourceSpecLE
  rcases lt_trichotomy (String.intercalate ", " a.pluginIds) (String.intercalate ", " b.pluginIds)
    with h | h | h
  · rcases Nat.lt_trichotomy a.pluginIds.length b.pluginIds.length with hc | hc | hc
    · right; left; exact hc
    · left; exact Or.inr ⟨hc.symm, Or.inl h⟩
    · left; left; exact hc
  · rcases Nat.lt_trichotomy a.pluginIds.length b.pluginIds.length with hc | hc | hc
    · right; left; exact hc
    · by_cases hs : scoreFallback b ≤ scoreFallback a
      · left; exact Or.inr ⟨hc.symm, Or.inr ⟨h, hs⟩⟩
      · right; exact Or.inr ⟨hc, Or.inr ⟨h.symm, by omega⟩⟩
    · left; left; exact hc
  · rcases Nat.lt_trichotomy a.pluginIds.length b.pluginIds.length with hc | hc | hc
    · right; left; exact hc
    · right; exact Or.inr ⟨hc, Or.inl h⟩
    · left; left; exact hc

theorem sourceCmp_trans (a b c : SearchResult) (hab : Sorting.sourceCmp a b ≤ 0)
    (hbc : Sorting.sourceCmp b c ≤ 0) : Sorting.sourceCmp a c ≤ 0 := by
  rw [sourceCmp_le_iff] at hab hbc ⊢
  exact sourceSpecLE_trans a b c hab hbc

theorem sourceCmp_total (a b : SearchResult) :
    Sorting.sourceCmp a b ≤ 0 ∨ Sorting.sourceCmp b a ≤ 0 := by
  rw [sourceCmp_le_iff, sourceCmp_le_iff]
  exact sourceSpecLE_total a b

/-! ### Claims about the sorter (C1, C10) -/

/-- C1 counterexample: the claim says sorting with the relevance policy
orders the list descending by number of contributing providers first, but
the relevance policy of the standalone sorting.ts module has no
provider-count key: a single-provider result with score 5 is placed ahead
of a two-provider result with score 0. -/
theorem c1_relevance_counterexample :
    ¬ (Sorting.sortResults
        [{ title := "two", description := "", url := "u1", score := some 0,
           pluginIds := ["a", "b"], pluginDisplayNames := ["A", "B"], receivedAt := 0 },
         { title := "one", description := "", url := "u2", score := some 5,
           pluginIds := ["c"], pluginDisplayNames := ["C"], receivedAt := 0 }]
        SortOrder.relevance).Pairwise relevanceSpecLE := by
  simp only [Sorting.sortResults, mergeSort_pair]
  norm_num [Sorting.relevanceCmp, scoreFallback, timestampFallback]
  simp [List.pairwise_cons, relevanceSpecLE, scoreFallback, timestampFallback]

/-- C1 (amended): the relevance comparator internal to backend.ts, the one
applied to every emitted snapshot, orders any list of aggregated results
descending by number of contributing providers, then descending by summed
score (missing treated as 0), then descending by effective timestamp; the
relevance policy of the standalone sorting.ts module instead orders
descending by summed score, then descending by effective timestamp, without
the provider-count key.  Both return a permutation of their input. -/
theorem c1_relevance_policy (l : List SearchResult) :
    (Backend.sortResults l SortOrder.relevance).Perm l ∧
      (Backend.sortResults l SortOrder.relevance).Pairwise relevanceSpecLE ∧
      (Sorting.sortResults l SortOrder.relevance).Perm l ∧
      (Sorting.sortResults l SortOrder.relevance).Pairwise relevanceModuleLE := by
  refine ⟨List.mergeSort_perm l _, ?_, List.mergeSort_perm l _, ?_⟩
  · have hs := @List.sorted_mergeSort SearchResult
      (fun a b => decide (Backend.relevanceCmp a b ≤ 0))
      (fun a b c hab hbc => by
        simp only [decide_eq_true_eq] at hab hbc ⊢
        exact relevanceCmp_trans a b c hab hbc)
      (fun a b => by
        simp only [Bool.or_eq_true, decide_eq_true_eq]
        exact relevanceCmp_total a b) l
    exact hs.imp (fun {x y} h => (relevanceCmp_le_iff x y).mp (by simpa using h))
  · have hs := @List.sorted_mergeSort SearchResult
      (fun a b => decide (Sorting.relevanceCmp a b ≤ 0))
      (fun a b c hab hbc => by
        simp only [decide_eq_true_eq] at hab hbc ⊢
        exact sortingRelevanceCmp_trans a b c hab hbc)
      (fun a b => by
        simp only [Bool.or_eq_true, decide_eq_true_eq]
        exact sortingRelevanceCmp_total a b) l
    exact hs.imp (fun {x y} h => (sortingRelevanceCmp_le_iff x y).mp (by simpa using h))

/-- C10: sorting with sorting.ts is idempotent for every policy, and pure:
it yields a permutation of its input as a new list, the input itself being
untouched in this functional model. -/
theorem c10_sort_idempotent_pure (l : List SearchResult) (o : SortOrder) :
    Sorting.sortResults (Sorting.sortResults l o) o = Sorting.sortResults l o ∧
      (Sorting.sortResults l o).Perm l := by
  cases o
  case relevance =>
    refine ⟨?_, List.mergeSort_perm l _⟩
    simp only [Sorting.sortResults]
    exact List.mergeSort_of_sorted
      (List.sorted_mergeSort
        (fun a b c hab hbc => by
          simp only [decide_eq_true_eq] at hab hbc ⊢
          exact sortingRelevanceCmp_trans a b c hab hbc)
        (fun a b => by
          simp only [Bool.or_eq_true, decide_eq_true_eq]
          exact sortingRelevanceCmp_total a b) l)
  case recency =>
    refine ⟨?_, List.mergeSort_perm l _⟩
    simp only [Sorting.sortResults]
    exact List.mergeSort_of_sorted
      (List.sorted_mergeSort
        (fun a b c hab hbc => by
          simp only [decide_eq_true_eq] at hab hbc ⊢
          exact recencyCmp_trans a b c hab hbc)
        (fun a b => by
          simp only [Bool.or_eq_true, decide_eq_true_eq]
          exact recencyCmp_total a b) l)
  case source =>
    refine ⟨?_, List.mergeSort_perm l _⟩
    simp only [Sorting.sortResults]
    exact List.mergeSort_of_sorted
      (List.sorted_mergeSort
        (fun a b c hab hbc => by
          simp only [decide_eq_true_eq] at hab hbc ⊢
          exact sourceCmp_trans a b c hab hbc)
        (fun a b => by
          simp only [Bool.or_eq_true, decide_eq_true_eq]
          exact sourceCmp_total a b) l)

/-! ### Claims about the cache (C5, C6, C7, C9) -/

theorem lookupEntry_setEntry_self {V : Type} (es : List (String × CacheEntry V)) (k : String)
    (e : CacheEntry V) :
    KeyValueStorage.lookupEntry (KeyValueStorage.setEntry es k e) k = some e := by
  induction es with
  | nil => simp [KeyValueStorage.setEntry, KeyValueStorage.lookupEntry]
  | cons kv rest ih =>
    by_cases h : kv.1 = k
    · simp [KeyValueStorage.setEntry, h, KeyValueStorage.lookupEntry]
    · simp [KeyValueStorage.setEntry, h, KeyValueStorage.lookupEntry, ih]

theorem set_entries_eq {V : Type} (s : KeyValueStorage V) (k : String) (v : V) (t0 : Int) :
    (s.set k v t0).entries = KeyValueStorage.setEntry s.entries k
      ⟨v, t0,
        match s.ttlMs with
        | some T => if T > 0 then some (t0 + T) else none
        | none => none⟩ := by
  simp only [KeyValueStorage.set]

theorem set_ttlMs_eq {V : Type} (s : KeyValueStorage V) (k : String) (v : V) (t0 : Int) :
    (s.set k v t0).ttlMs = s.ttlMs := by
  simp only [KeyValueStorage.set]

/-- C5: an entry stored with a positive TTL T at time t0 is returned by get
at every time strictly before t0 + T and is absent from t0 + T onward;
with a configured TTL of 0 the entry never expires. -/
theorem c5_ttl_expiry {V : Type} (s : KeyValueStorage V) (T : Int) (k : String) (v : V)
    (t0 t : Int) (hT : s.ttlMs = some T) :
    (0 < T → ((s.set k v t0).get k t).fst = if t < t0 + T then some v else none) ∧
      (T = 0 → ((s.set k v t0).get k t).fst = some v) := by
  constructor
  · intro hpos
    have hent : (s.set k v t0).entries = KeyValueStorage.setEntry s.entries k
        ⟨v, t0, some (t0 + T)⟩ := by
      rw [set_entries_eq, hT]
      simp [hpos]
    simp only [KeyValueStorage.get, hent, lookupEntry_setEntry_self]
    by_cases ht : t < t0 + T
    · have hexp : (s.set k v t0).isExpired t ⟨v, t0, some (t0 + T)⟩ = false := by
        simp [KeyValueStorage.isExpired]
        omega
      simp [hexp, ht]
    · have hexp : (s.set k v t0).isExpired t ⟨v, t0, some (t0 + T)⟩ = true := by
        simp [KeyValueStorage.isExpired]
        omega
      simp [hexp, ht]
  · intro hzero
    have hent : (s.set k v t0).entries = KeyValueStorage.setEntry s.entries k
        ⟨v, t0, none⟩ := by
      rw [set_entries_eq, hT, hzero]
      simp
    have hexp : (s.set k v t0).isExpired t ⟨v, t0, none⟩ = false := by
      simp [KeyValueStorage.isExpired, set_ttlMs_eq, hT, hzero]
    simp [KeyValueStorage.get, hent, lookupEntry_setEntry_self, hexp]

/-- C6: set followed immediately by get, at the same instant and hence
before any expiry, returns the stored value for every TTL configuration. -/
theorem c6_cache_roundtrip {V : Type} (s : KeyValueStorage V) (k : String) (v : V) (t0 : Int) :
    ((s.set k v t0).get k t0).fst = some v := by
  rcases hT : s.ttlMs with _ | T
  · have hent : (s.set k v t0).entries = KeyValueStorage.setEntry s.entries k ⟨v, t0, none⟩ := by
      rw [set_entries_eq, hT]
    have hexp : (s.set k v t0).isExpired t0 ⟨v, t0, none⟩ = false := by
      simp [KeyValueStorage.isExpired, set_ttlMs_eq, hT]
    simp [KeyValueStorage.get, hent, lookupEntry_setEntry_self, hexp]
  · by_cases hpos : T > 0
    · have hent : (s.set k v t0).entries = KeyValueStorage.setEntry s.entries k
          ⟨v, t0, some (t0 + T)⟩ := by
        rw [set_entries_eq, hT]
        simp [hpos]
      have hexp : (s.set k v t0).isExpired t0 ⟨v, t0, some (t0 + T)⟩ = false := by
        simp [KeyValueStorage.isExpired]
        omega
      simp [KeyValueStorage.get, hent, lookupEntry_setEntry_self, hexp]
    · have hent : (s.set k v t0).entries = KeyValueStorage.setEntry s.entries k
          ⟨v, t0, none⟩ := by
        rw [set_entries_eq, hT]
        simp [hpos]
      have hexp : (s.set k v t0).isExpired t0 ⟨v, t0, none⟩ = false := by
        simp [KeyValueStorage.isExpired, set_ttlMs_eq, hT, hpos]
      simp [KeyValueStorage.get, hent, lookupEntry_setEntry_self, hexp]

/-- C7: the cache key is the plain dash-joined string, and the mapping from
(provider id, query, limit) triples to keys is not injective: provider a
with query b-c collides with provider a-b with query c, so one triple can
be served results cached under the other. -/
theorem c7_cache_key_collision :
    Backend.getCacheKey ("a") ("b-c") none = Backend.getCacheKey ("a-b") ("c") none ∧
      Backend.getCacheKey ("a") ("b-c") none = ("a-b-c-") ∧
      (("a" : String), ("b-c" : String)) ≠ (("a-b" : String), ("c" : String)) := by
  refine ⟨by decide, by decide, by decide⟩

/-- C9: a parsed cache document whose version differs from the supported
one is adopted as empty: no entries are loaded and every subsequent get
behaves as on a fresh store, with no error raised. -/
theorem c9_version_mismatch {V : Type} (ttl : Option Int) (d : CacheFileFormat V)
    (now : Int) (h : d.version ≠ CACHE_FILE_VERSION) :
    (KeyValueStorage.loadFromDisk ttl (some d) now).entries = [] ∧
      ∀ (k : String) (t : Int),
        ((KeyValueStorage.loadFromDisk ttl (some d) now).get k t).fst = none := by
  have hload : KeyValueStorage.loadFromDisk ttl (some d) now =
      KeyValueStorage.pruneExpiredEntries { ttlMs := ttl, entries := [] } now := by
    simp [KeyValueStorage.loadFromDisk, h]
  have hempty : (KeyValueStorage.loadFromDisk ttl (some d) now).entries = [] := by
    rw [hload]
    simp [KeyValueStorage.pruneExpiredEntries]
  refine ⟨hempty, fun k t => ?_⟩
  simp [KeyValueStorage.get, hempty, KeyValueStorage.lookupEntry]

/-! ### Claims about the registry (C8) -/

theorem lookupReg_append_self (es : List (String × PluginRegistration)) (k : String)
    (r : PluginRegistration) (h : PluginManager.lookupReg es k = none) :
    PluginManager.lookupReg (es ++ [(k, r)]) k = some r := by
  induction es with
  | nil => simp [PluginManager.lookupReg]
  | cons kv rest ih =>
    rw [PluginManager.lookupReg] at h
    by_cases hk : kv.1 = k
    · simp [hk] at h
    · rw [if_neg hk] at h
      simpa [PluginManager.lookupReg, hk] using ih h

theorem lookupReg_updateReg_self (es : List (String × PluginRegistration)) (k : String)
    (r : PluginRegistration) :
    PluginManager.lookupReg (PluginManager.updateReg es k r) k = some r := by
  induction es with
  | nil => simp [PluginManager.updateReg, PluginManager.lookupReg]
  | cons kv rest ih =>
    by_cases h : kv.1 = k
    · simp [PluginManager.updateReg, h, PluginManager.lookupReg]
    · simp [PluginManager.updateReg, h, PluginManager.lookupReg, ih]

/-- C8: register fails with the already-registered error exactly when the
id is present, and otherwise records the plugin with the enabled flag
defaulted from its enabled-by-default flag (true when unset); setEnabled
and toggle fail with the unknown-plugin error exactly when the id is
absent, and toggle returns the resulting enabled state. -/
theorem c8_registry_operations (m : PluginManager) (p : SearchPlugin) (id : String) (b : Bool) :
    ((∃ e, m.register p = .error e) ↔ (PluginManager.lookupReg m.plugins p.id).isSome) ∧
      (∀ e, m.register p = .error e → e = .alreadyRegistered p.id) ∧
      (PluginManager.lookupReg m.plugins p.id = none →
        ∃ m2, m.register p = .ok m2 ∧
          PluginManager.lookupReg m2.plugins p.id =
            some { plugin := p, enabled := p.isEnabledByDefault.getD true }) ∧
      ((∃ e, m.setEnabled id b = .error e) ↔ PluginManager.lookupReg m.plugins id = none) ∧
      (∀ e, m.setEnabled id b = .error e → e = .unknownPlugin id) ∧
      ((∃ e, m.toggle id = .error e) ↔ PluginManager.lookupReg m.plugins id = none) ∧
      (∀ e, m.toggle id = .error e → e = .unknownPlugin id) ∧
      (∀ reg, PluginManager.lookupReg m.plugins id = some reg →
        m.toggle id = .ok (!reg.enabled,
          { plugins := PluginManager.updateReg m.plugins id { reg with enabled := !reg.enabled } }) ∧
        ∀ m2, m.toggle id = .ok (!reg.enabled, m2) →
          PluginManager.lookupReg m2.plugins id = some { reg with enabled := !reg.enabled }) := by
  refine ⟨?_, ?_, ?_, ?_, ?_, ?_, ?_, ?_⟩
  · constructor
    · rintro ⟨e, he⟩
      rcases hl : PluginManager.lookupReg m.plugins p.id with _ | reg
      · simp [PluginManager.register, hl] at he
      · simp
    · intro hsome
      rcases hl : PluginManager.lookupReg m.plugins p.id with _ | reg
      · rw [hl] at hsome
        simp at hsome
      · exact ⟨.alreadyRegistered p.id, by simp [PluginManager.register, hl]⟩
  · intro e he
    rcases hl : PluginManager.lookupReg m.plugins p.id with _ | reg
    · simp [PluginManager.register, hl] at he
    · simp [PluginManager.register, hl] at he
      exact he.symm
  · intro hnone
    exact ⟨{ plugins := m.plugins ++
        [(p.id, { plugin := p, enabled := p.isEnabledByDefault.getD true })] },
      by simp [PluginManager.register, hnone],
      lookupReg_append_self m.plugins p.id _ hnone⟩
  · constructor
    · rintro ⟨e, he⟩
      rcases hl : PluginManager.lookupReg m.plugins id with _ | reg
      · rfl
      · simp [PluginManager.setEnabled, hl] at he
    · intro hnone
      exact ⟨.unknownPlugin id, by simp [PluginManager.setEnabled, hnone]⟩
  · intro e he
    rcases hl : PluginManager.lookupReg m.plugins id with _ | reg
    · simp [PluginManager.setEnabled, hl] at he
      exact he.symm
    · simp [PluginManager.setEnabled, hl] at he
  · constructor
    · rintro ⟨e, he⟩
      rcases hl : PluginManager.lookupReg m.plugins id with _ | reg
      · rfl
      · simp [PluginManager.toggle, hl] at he
    · intro hnone
      exact ⟨.unknownPlugin id, by simp [PluginManager.toggle, hnone]⟩
  · intro e he
    rcases hl : PluginManager.lookupReg m.plugins id with _ | reg
    · simp [PluginManager.toggle, hl] at he
      exact he.symm
    · simp [PluginManager.toggle, hl] at he
  · intro reg hreg
    refine ⟨by simp [PluginManager.toggle, hreg], fun m2 hm2 => ?_⟩
    simp [PluginManager.toggle, hreg] at hm2
    rw [← hm2]
    exact lookupReg_updateReg_self m.plugins id _

/-- Witness for C5: with TTL 10, a value stored at time 0 is still returned
at time 9 and absent at time 10. -/
theorem c5_ttl_expiry_witness :
    ((({ ttlMs := some 10 } : KeyValueStorage Nat).set ("k") 7 0).get ("k") 9).fst = some 7 ∧
      ((({ ttlMs := some 10 } : KeyValueStorage Nat).set ("k") 7 0).get ("k") 10).fst = none := by
  constructor
  · have h := (c5_ttl_expiry ({ ttlMs := some 10 } : KeyValueStorage Nat) 10 ("k") 7 0 9
      rfl).1 (by norm_num)
    simpa using h
  · have h := (c5_ttl_expiry ({ ttlMs := some 10 } : KeyValueStorage Nat) 10 ("k") 7 0 10
      rfl).1 (by norm_num)
    simpa using h

/-- Witness for C9: a version-2 document with one entry is adopted as
empty and its key reads back as absent. -/
theorem c9_version_mismatch_witness :
    (KeyValueStorage.loadFromDisk none
        (some ({ version := 2, entries := [(("x"), ⟨5, 0, none⟩)] } : CacheFileFormat Nat))
        0).entries = [] ∧
      ((KeyValueStorage.loadFromDisk none
          (some ({ version := 2, entries := [(("x"), ⟨5, 0, none⟩)] } : CacheFileFormat Nat))
          0).get ("x") 0).fst = none := by
  have h := c9_version_mismatch none
    ({ version := 2, entries := [(("x"), ⟨5, 0, none⟩)] } : CacheFileFormat Nat) 0
    (by norm_num [CACHE_FILE_VERSION])
  exact ⟨h.1, h.2 ("x") 0⟩

/-- Witness for C8: registering a plugin with no enabled-by-default flag
into an empty registry succeeds and records it enabled. -/
theorem c8_registry_operations_witness :
    ∃ m2, PluginManager.register { plugins := [] } { id := ("x"), displayName := ("X") } =
        .ok m2 ∧
      PluginManager.lookupReg m2.plugins ("x") =
        some { plugin := { id := ("x"), displayName := ("X") }, enabled := true } := by
  have h := (c8_registry_operations { plugins := [] } { id := ("x"), displayName := ("X") }
    ("x") true).2.2.1 (by rfl)
  simpa using h

/-! ### Claim about the merge rule (C2) -/

/-- C2: merging two raw results with the same url contributed by two
different providers in one search yields a single aggregated result whose
provider id list holds both ids exactly once, whose id and display-name
lists have equal non-zero length and descend lexicographically by provider
id, and whose score is the sum of the contributed scores (a missing score
adds 0), the field being absent when neither contributor supplied one. -/
theorem c2_merge_pair (p1 d1 p2 d2 : String) (r1 r2 : PluginSearchResult) (now : Int)
    (hne : p1 ≠ p2) (hurl : r1.url = r2.url) :
    ∃ res, aggregatePluginResults [⟨p1, d1, [r1]⟩, ⟨p2, d2, [r2]⟩] now = [res] ∧
      res.pluginIds.count p1 = 1 ∧ res.pluginIds.count p2 = 1 ∧
      res.pluginIds.length = res.pluginDisplayNames.length ∧
      res.pluginIds.length ≠ 0 ∧
      res.pluginIds.Pairwise (fun x y => localeCompare y x < 0) ∧
      res.score = (if r1.score.isSome ∨ r2.score.isSome
        then some (r1.score.getD 0 + r2.score.getD 0) else none) := by
  have hgroup : groupByUrl [tagResult p1 d1 r1, tagResult p2 d2 r2] =
      [(r1.url, [tagResult p1 d1 r1, tagResult p2 d2 r2])] := by
    simp [groupByUrl, addToGroups, tagResult, hurl]
  rcases lt_trichotomy p1 p2 with h | h | h
  · have hsorted : [tagResult p1 d1 r1, tagResult p2 d2 r2].mergeSort pluginIdDescLe =
        [tagResult p2 d2 r2, tagResult p1 d1 r1] := by
      rw [mergeSort_pair]
      have : pluginIdDescLe (tagResult p1 d1 r1) (tagResult p2 d2 r2) = false := by
        simp [pluginIdDescLe, tagResult, localeCompare_of_gt h]
      simp [this]
    simp only [aggregatePluginResults, List.map, List.flatten, List.append_nil,
      List.nil_append, List.singleton_append, hgroup, List.filterMap_cons, List.filterMap_nil,
      combineValues, hsorted]
    refine ⟨_, rfl, ?_, ?_, ?_, ?_, ?_, ?_⟩
    · simp [tagResult, List.count_cons, hne]
    · simp [tagResult, List.count_cons, Ne.symm hne]
    · simp [tagResult]
    · simp [tagResult]
    · simp [tagResult, List.pairwise_cons, localeCompare_of_lt h]
    · rcases hs1 : r1.score with _ | s1 <;> rcases hs2 : r2.score with _ | s2 <;>
        (simp [assignCombine, tagResult, hs1, hs2]; try omega)
  · exact absurd h hne
  · have hsorted : [tagResult p1 d1 r1, tagResult p2 d2 r2].mergeSort pluginIdDescLe =
        [tagResult p1 d1 r1, tagResult p2 d2 r2] := by
      rw [mergeSort_pair]
      have : pluginIdDescLe (tagResult p1 d1 r1) (tagResult p2 d2 r2) = true := by
        simp [pluginIdDescLe, tagResult, localeCompare_of_lt h]
      simp [this]
    simp only [aggregatePluginResults, List.map, List.flatten, List.append_nil,
      List.nil_append, List.singleton_append, hgroup, List.filterMap_cons, List.filterMap_nil,
      combineValues, hsorted]
    refine ⟨_, rfl, ?_, ?_, ?_, ?_, ?_, ?_⟩
    · simp [tagResult, List.count_cons, hne]
    · simp [tagResult, List.count_cons, Ne.symm hne]
    · simp [tagResult]
    · simp [tagResult]
    · simp [tagResult, List.pairwise_cons, localeCompare_of_lt h]
    · rcases hs1 : r1.score with _ | s1 <;> rcases hs2 : r2.score with _ | s2 <;>
        (simp [assignCombine, tagResult, hs1, hs2]; try omega)

/-! ### Claims about the streaming search (C3, C4) -/

theorem streamGo_length (o : SortOrder) (now : Int) (gs : List PluginSearchResultGroup)
    (es : List PluginSearchError) (cs : List Completion) :
    (Backend.streamGo o now gs es cs).length = cs.length := by
  induction cs generalizing gs es with
  | nil => simp [Backend.streamGo]
  | cons c rest ih =>
    cases hc : c.outcome <;> simp [Backend.streamGo, hc, ih]

theorem errorsOf_cons (c : Completion) (rest : List Completion) :
    errorsOf (c :: rest) =
      (match c.outcome with
        | .fulfilled _ => []
        | .rejected e => [⟨c.plugin.id, c.plugin.displayName, e⟩]) ++ errorsOf rest := by
  cases hc : c.outcome <;> simp [errorsOf, List.filterMap_cons, hc]

theorem errorsOf_length (cs : List Completion) :
    (errorsOf cs).length = cs.countP (fun c => c.isRejected) := by
  induction cs with
  | nil => simp [errorsOf]
  | cons c rest ih =>
    cases hc : c.outcome <;>
      simp [errorsOf_cons, hc, List.countP_cons, Completion.isRejected, Outcome.isRejected,
        ih, Nat.add_comm]

theorem errorsOf_countP (cs : List Completion) (pid : String) :
    (errorsOf cs).countP (fun e => e.pluginId == pid) =
      cs.countP (fun c => c.isRejected && c.plugin.id == pid) := by
  induction cs with
  | nil => simp [errorsOf]
  | cons c rest ih =>
    cases hc : c.outcome <;>
      simp [errorsOf_cons, hc, List.countP_cons, Completion.isRejected, Outcome.isRejected,
        ih, Nat.add_comm]

theorem streamGo_errors (o : SortOrder) (now : Int) (gs : List PluginSearchResultGroup)
    (es : List PluginSearchError) (cs : List Completion) (j : Nat) (hj : j < cs.length) :
    ((Backend.streamGo o now gs es cs)[j]?).map SearchResponse.errors =
      some (es ++ errorsOf (cs.take (j + 1))) := by
  induction cs generalizing gs es j with
  | nil => simp at hj
  | cons c rest ih =>
    cases j with
    | zero =>
      cases hc : c.outcome <;>
        simp [Backend.streamGo, hc, errorsOf_cons, errorsOf]
    | succ j =>
      have hj2 : j < rest.length := by simpa using hj
      cases hc : c.outcome with
      | fulfilled results =>
        have := ih (gs ++ [⟨c.plugin.id, c.plugin.displayName, results⟩]) es j hj2
        simpa [Backend.streamGo, hc, errorsOf_cons, List.take_succ_cons] using this
      | rejected e =>
        have := ih gs (es ++ [⟨c.plugin.id, c.plugin.displayName, e⟩]) j hj2
        simpa [Backend.streamGo, hc, errorsOf_cons, List.take_succ_cons,
          List.append_assoc] using this

theorem countP_rejected_take (arrival : List Completion) (i j : Nat) (c : Completion)
    (hij : i ≤ j) (hi : arrival[i]? = some c) (hrej : c.isRejected = true)
    (hnd : (arrival.map (fun x => x.plugin.id)).Nodup) :
    (arrival.take (j + 1)).countP
      (fun x => x.isRejected && x.plugin.id == c.plugin.id) = 1 := by
  have hmemt : c ∈ arrival.take (j + 1) := by
    have h1 : (arrival.take (j + 1))[i]? = some c := by
      rw [List.getElem?_take_of_lt (by omega)]
      exact hi
    exact List.getElem?_mem h1
  have hub : (arrival.take (j + 1)).countP (fun x => x.plugin.id == c.plugin.id) ≤ 1 := by
    have hsub : ((arrival.take (j + 1)).map (fun x => x.plugin.id)).Sublist
        (arrival.map (fun x => x.plugin.id)) :=
      (List.take_sublist (j + 1) arrival).map (fun x => x.plugin.id)
    have hnd2 : ((arrival.take (j + 1)).map (fun x => x.plugin.id)).Nodup :=
      hnd.sublist hsub
    have := (List.nodup_iff_count_le_one.mp hnd2) c.plugin.id
    rw [List.count_eq_countP, List.countP_map] at this
    simpa using this
  have hlb : 0 < (arrival.take (j + 1)).countP
      (fun x => x.isRejected && x.plugin.id == c.plugin.id) := by
    rw [List.countP_pos_iff]
    exact ⟨c, hmemt, by simp [hrej]⟩
  have hmono : (arrival.take (j + 1)).countP
      (fun x => x.isRejected && x.plugin.id == c.plugin.id) ≤
        (arrival.take (j + 1)).countP (fun x => x.plugin.id == c.plugin.id) :=
    List.countP_mono_left (fun x _ hx => by
      simp only [Bool.and_eq_true] at hx
      exact hx.2)
  omega

/-- C3: for every search, the error list of the final snapshot carries
exactly the failures, its length being the number of enabled providers
whose call did not succeed; a failure appears exactly once in the error
list of every snapshot from its arrival onward; and every completion still
yields its snapshot, so one failure never aborts the other providers. -/
theorem c3_error_semantics (arrival : List Completion) (o : SortOrder) (now : Int)
    (hne : arrival ≠ [])
    (hnd : (arrival.map (fun c => c.plugin.id)).Nodup) :
    ((Backend.streamGo o now [] [] arrival).getLast?).map SearchResponse.errors =
        some (errorsOf arrival) ∧
      (errorsOf arrival).length = arrival.countP (fun c => c.isRejected) ∧
      (Backend.streamGo o now [] [] arrival).length = arrival.length ∧
      ∀ i j : Nat, ∀ c : Completion, i ≤ j → j < arrival.length →
        arrival[i]? = some c → c.isRejected = true →
        ((Backend.streamGo o now [] [] arrival)[j]?).map
            (fun snap => snap.errors.countP (fun e => e.pluginId == c.plugin.id)) =
          some 1 := by
  have hlen := streamGo_length o now [] [] arrival
  have hnil : arrival.length ≠ 0 := fun h => hne (List.length_eq_zero.mp h)
  refine ⟨?_, errorsOf_length arrival, hlen, ?_⟩
  · rw [List.getLast?_eq_getElem?, hlen]
    have := streamGo_errors o now [] [] arrival (arrival.length - 1) (by omega)
    rw [List.take_of_length_le (by omega)] at this
    simpa using this
  · intro i j c hij hj hi hrej
    have herr := streamGo_errors o now [] [] arrival j hj
    rcases hx : (Backend.streamGo o now [] [] arrival)[j]? with _ | snap
    · rw [hx] at herr
      simp at herr
    · rw [hx] at herr
      have hsnap : snap.errors = errorsOf (arrival.take (j + 1)) := by
        simpa using herr
      simp only [Option.map, hsnap, errorsOf_countP]
      exact congrArg some (countP_rejected_take arrival i j c hij hi hrej hnd)

/-- C4: searchStream yields a finite sequence with exactly one snapshot per
enabled provider completion, ending once every enabled provider has
completed; with no enabled providers the sequence is empty. -/
theorem c4_snapshot_per_completion (enabled : List SearchPlugin) (arrival : List Completion)
    (o : SortOrder) (now : Int)
    (hperm : (arrival.map (fun c => c.plugin)).Perm enabled) :
    (Backend.searchStream enabled arrival o now).length = enabled.length ∧
      (enabled = [] → Backend.searchStream enabled arrival o now = []) := by
  constructor
  · unfold Backend.searchStream
    by_cases he : enabled.isEmpty
    · rw [if_pos he]
      rw [List.isEmpty_iff.mp he]
      rfl
    · rw [if_neg he, streamGo_length]
      have h1 := hperm.length_eq
      simpa using h1
  · intro h
    simp [Backend.searchStream, h]

/-- Witness for C4: one enabled provider completing successfully yields
exactly one snapshot, and an empty registry yields none. -/
theorem c4_snapshot_per_completion_witness :
    (Backend.searchStream [{ id := ("a"), displayName := ("A") }]
        [⟨{ id := ("a"), displayName := ("A") }, .fulfilled []⟩]
        SortOrder.relevance 0).length = 1 ∧
      (Backend.searchStream ([] : List SearchPlugin) ([] : List Completion)
        SortOrder.relevance 0).length = 0 := by
  constructor
  · exact (c4_snapshot_per_completion [{ id := ("a"), displayName := ("A") }]
      [⟨{ id := ("a"), displayName := ("A") }, .fulfilled []⟩]
      SortOrder.relevance 0 (by simp)).1
  · have h := (c4_snapshot_per_completion ([] : List SearchPlugin) ([] : List Completion)
      SortOrder.relevance 0 (by simp)).2 rfl
    rw [h]
    rfl

/-- Witness for C3: provider a fails, provider b succeeds; the failure
count matches, and the second snapshot still carries exactly one error
record for provider a. -/
theorem c3_error_semantics_witness :
    (errorsOf [⟨{ id := ("a"), displayName := ("A") }, .rejected ("boom")⟩,
        ⟨{ id := ("b"), displayName := ("B") }, .fulfilled []⟩]).length =
      ([⟨{ id := ("a"), displayName := ("A") }, .rejected ("boom")⟩,
        ⟨{ id := ("b"), displayName := ("B") }, .fulfilled []⟩] :
          List Completion).countP (fun c => c.isRejected) ∧
      ((Backend.streamGo SortOrder.relevance 0 [] []
          [⟨{ id := ("a"), displayName := ("A") }, .rejected ("boom")⟩,
           ⟨{ id := ("b"), displayName := ("B") }, .fulfilled []⟩])[1]?).map
          (fun snap => snap.errors.countP (fun e => e.pluginId == ("a"))) = some 1 := by
  have h := c3_error_semantics
    [⟨{ id := ("a"), displayName := ("A") }, .rejected ("boom")⟩,
     ⟨{ id := ("b"), displayName := ("B") }, .fulfilled []⟩]
    SortOrder.relevance 0 (by simp) (by simp)
  refine ⟨h.2.1, ?_⟩
  have h2 := h.2.2.2 0 1 ⟨{ id := ("a"), displayName := ("A") }, .rejected ("boom")⟩
    (by omega) (by simp) rfl rfl
  simpa using h2

/-- Witness for C2: the spec scenario, providers alpha (score 5) and beta
(score 3) contributing the same url. -/
theorem c2_merge_pair_witness :
    ∃ res, aggregatePluginResults
        [⟨("alpha"), ("Alpha"),
          [{ title := ("x"), description := (""), url := ("u"), score := some 5 }]⟩,
         ⟨("beta"), ("Beta"),
          [{ title := ("y"), description := (""), url := ("u"), score := some 3 }]⟩] 0 = [res] ∧
      res.pluginIds.count ("alpha") = 1 ∧ res.pluginIds.count ("beta") = 1 ∧
      res.pluginIds.length = res.pluginDisplayNames.length ∧
      res.pluginIds.length ≠ 0 ∧
      res.pluginIds.Pairwise (fun x y => localeCompare y x < 0) ∧
      res.score = (if (some (5 : Int)).isSome ∨ (some (3 : Int)).isSome
        then some ((some (5 : Int)).getD 0 + (some (3 : Int)).getD 0) else none) :=
  c2_merge_pair ("alpha") ("Alpha") ("beta") ("Beta")
    { title := ("x"), description := (""), url := ("u"), score := some 5 }
    { title := ("y"), description := (""), url := ("u"), score := some 3 }
    0 (by decide) rfl

end Findr
